import Mathlib

/-!
Shallow embedding of `src/script.py` (class `ShopMediaScrapper`), the
per-shop scraping pipeline of the sufio-shopscrapper repository.

Modelling conventions:
* An HTTP response (`requests.Response`) is modelled as a `Response`
  record carrying the status code, the raw body text, and the result of
  `response.json()` — `none` when the body is not valid JSON
  (`JSONDecodeError`), `some v` otherwise.  `requests.get` is modelled
  as an oracle `fetch : String → Except String Response`; `Except.error`
  models a transport-level exception (connection refused, timeout, DNS
  failure) raised by `requests.get`.  The Python code contains no
  `try/except` around `requests.get`, so the embedding threads errors
  through `Except` binds: an `Except.error` propagates out, exactly as
  an uncaught Python exception would.
* `random.randint` is modelled as an oracle `randint : Nat → Nat → Nat`;
  the library contract is `a ≤ randint a b ≤ b` whenever `a ≤ b`, which
  theorems take as a hypothesis where it matters.  List indexing
  `winners[i]` is rendered as `List.getD` with default `""`; under the
  `randint` contract the index is in range and the default is dead code.
* Python dicts with string keys are modelled as association lists in
  insertion order (the dicts in the script never delete keys).
* `re.findall` for the four concrete regexes of the script is modelled
  by a leftmost, non-overlapping scanner (`scanAll`) with a hand-rolled
  matcher per pattern.  Each pattern begins with a non-empty literal, so
  every successful match consumes at least one character; the scanner
  carries fuel `length + 1`, which is enough to scan the whole input.
* `urllib.parse.unquote`, `str.strip`, `str.lower` are modelled for
  single-byte percent-escapes and ASCII case, which covers every string
  the script's own logic distinguishes.
-/

/-- A parsed JSON value, the result of `response.json()`. -/
inductive Json where
  | null : Json
  | bool : Bool → Json
  | num : Int → Json
  | str : String → Json
  | arr : List Json → Json
  | obj : List (String × Json) → Json

/-- An HTTP response as the script observes it: `status_code`, `text`,
and the parsed body (`none` models a `JSONDecodeError` from `.json()`). -/
structure Response where
  status_code : Nat
  text : String
  json : Option Json

/-! ### Python string primitives used by the script -/

/-- Python `str.find`: index of the first occurrence of `sub` in `s`,
`-1` when `sub` does not occur.  (Auxiliary scanner over char lists.) -/
def pyFindAux (sub : List Char) : Nat → List Char → Option Nat
  | i, [] => if List.isPrefixOf sub [] then some i else none
  | i, c :: cs => if List.isPrefixOf sub (c :: cs) then some i else pyFindAux sub (i + 1) cs

/-- Python `s.find(sub)`. -/
def pyFind (s sub : String) : Int :=
  match pyFindAux sub.data 0 s.data with
  | some i => Int.ofNat i
  | none => -1

/-- Python slice `s[:k]` for an `Int` bound: a negative bound counts
from the end, and the result is clamped to the string. -/
def pySliceTo (s : String) (k : Int) : String :=
  let idx : Int := if k < 0 then Int.ofNat s.data.length + k else k
  String.mk (s.data.take idx.toNat)

/-- One hex digit of a percent-escape. -/
def hexVal (c : Char) : Option Nat :=
  if '0' ≤ c ∧ c ≤ '9' then some (c.toNat - '0'.toNat)
  else if 'a' ≤ c ∧ c ≤ 'f' then some (c.toNat - 'a'.toNat + 10)
  else if 'A' ≤ c ∧ c ≤ 'F' then some (c.toNat - 'A'.toNat + 10)
  else none

/-- `urllib.parse.unquote` on char lists: `%XY` with hex digits decodes
to the byte value, any other `%` is kept literally (single-byte model). -/
def unquoteAux : List Char → List Char
  | [] => []
  | '%' :: a :: b :: rest =>
    match hexVal a, hexVal b with
    | some x, some y => Char.ofNat (16 * x + y) :: unquoteAux rest
    | _, _ => '%' :: unquoteAux (a :: b :: rest)
  | c :: rest => c :: unquoteAux rest

/-- Python `urllib.parse.unquote` (single-byte model). -/
def unquote (s : String) : String := String.mk (unquoteAux s.data)

/-- Python `str.split(sep)` for a one-character separator (the script
only splits on `'-'`): `""` splits to `[""]`, separators at the ends
produce empty pieces. -/
def pySplitAux (sep : Char) : List Char → List Char → List String
  | [], acc => [String.mk acc.reverse]
  | c :: cs, acc =>
    if c = sep then String.mk acc.reverse :: pySplitAux sep cs []
    else pySplitAux sep cs (c :: acc)

/-- Python `s.split(sep)` (one-character separator). -/
def pySplit (s : String) (sep : Char) : List String := pySplitAux sep s.data []

/-- The ASCII whitespace stripped by Python `str.strip()`. -/
def isSpaceChar (c : Char) : Bool :=
  c == ' ' || c == '\t' || c == '\n' || c == '\r' || c == '\x0b' || c == '\x0c'

/-- Python `str.strip()` (ASCII whitespace model). -/
def pyStrip (s : String) : String :=
  String.mk (((s.data.dropWhile isSpaceChar).reverse.dropWhile isSpaceChar).reverse)

/-- Python `str.lower()` on one character (ASCII model). -/
def toLowerChar (c : Char) : Char :=
  if 'A' ≤ c ∧ c ≤ 'Z' then Char.ofNat (c.toNat + 32) else c

/-- Python `str.lower()` (ASCII model). -/
def pyLower (s : String) : String := String.mk (s.data.map toLowerChar)

/-! ### The four regex patterns of the script, as scanners

`SCRAPING_REGEX_TWITTER  = https?://(?:www\.)?twitter\.com/[a-zA-Z0-9-._]*`
`SCRAPING_REGEX_FACEBOOK = https?://(?:www\.)?facebook\.com/[a-zA-Z0-9-._]*`
`SCRAPING_REGEX_EMAIL    = [a-z0-9-.]+@[a-z.]+`
`SCRAPING_REGEX_PRODUCT  = /collections/all/products/[^"]+`
-/

/-- Drop a literal prefix, or fail. -/
def dropLit : List Char → List Char → Option (List Char)
  | [], l => some l
  | _ :: _, [] => none
  | p :: ps, c :: cs => if c = p then dropLit ps cs else none

/-- Character class `[a-zA-Z0-9-._]` of the social-handle patterns. -/
def isHandleChar (c : Char) : Bool :=
  (decide ('a' ≤ c) && decide (c ≤ 'z')) || (decide ('A' ≤ c) && decide (c ≤ 'Z')) ||
  (decide ('0' ≤ c) && decide (c ≤ '9')) || c == '-' || c == '.' || c == '_'

/-- Character class `[a-z0-9-.]` (local part of the email pattern). -/
def isLocalChar (c : Char) : Bool :=
  (decide ('a' ≤ c) && decide (c ≤ 'z')) ||
  (decide ('0' ≤ c) && decide (c ≤ '9')) || c == '-' || c == '.'

/-- Character class `[a-z.]` (domain part of the email pattern). -/
def isDomainChar (c : Char) : Bool :=
  (decide ('a' ≤ c) && decide (c ≤ 'z')) || c == '.'

/-- ASCII uppercase letter (`A`–`Z`). -/
def isUpperAscii (c : Char) : Bool :=
  decide ('A' ≤ c) && decide (c ≤ 'Z')

/-- Match `https?://(?:www\.)?<domain>[a-zA-Z0-9-._]*` at the head of
`l` (`domain` includes the trailing `/` of the pattern).  Returns the
matched characters and the remaining input.  The regex's `s?` and
`(?:www\.)?` are greedy with backtracking; since `:` ≠ `s` and the
domain literal does not start with `w`, trying the optional part first
and falling back is equivalent to full backtracking. -/
def matchSocialAt (domain : List Char) (l : List Char) : Option (List Char × List Char) :=
  match dropLit ("http".data) l with
  | none => none
  | some r1 =>
    let sw : List Char × List Char :=
      match r1 with
      | 's' :: rest => ("s".data, rest)
      | _ => ([], r1)
    match dropLit ("://".data) sw.2 with
    | none => none
    | some r3 =>
      let ww : List Char × List Char :=
        match dropLit ("www.".data) r3 with
        | some rest => if (dropLit domain rest).isSome then ("www.".data, rest) else ([], r3)
        | none => ([], r3)
      match dropLit domain ww.2 with
      | none => none
      | some r5 =>
        some ("http".data ++ sw.1 ++ "://".data ++ ww.1 ++ domain ++ r5.takeWhile isHandleChar,
              r5.dropWhile isHandleChar)

/-- Match `[a-z0-9-.]+@[a-z.]+` at the head of `l`.  The classes are
disjoint from `@`, so the greedy runs need no backtracking. -/
def matchEmailAt (l : List Char) : Option (List Char × List Char) :=
  match l.takeWhile isLocalChar, l.dropWhile isLocalChar with
  | [], _ => none
  | _ :: _, [] => none
  | a :: as, b :: r2 =>
    if b = '@' then
      match r2.takeWhile isDomainChar with
      | [] => none
      | d :: ds => some ((a :: as) ++ '@' :: d :: ds, r2.dropWhile isDomainChar)
    else none

/-- Match `/collections/all/products/[^"]+` at the head of `l`. -/
def matchProductAt (l : List Char) : Option (List Char × List Char) :=
  match dropLit ("/collections/all/products/".data) l with
  | none => none
  | some r =>
    match r.takeWhile (fun c => c ≠ '"') with
    | [] => none
    | b :: bs => some ("/collections/all/products/".data ++ b :: bs,
                       r.dropWhile (fun c => c ≠ '"'))

/-- `re.findall` driver: try `matchAt` at each position, left to right;
on a match emit it and continue after it (non-overlapping), otherwise
advance one character.  `fuel` bounds the number of steps. -/
def scanAll (matchAt : List Char → Option (List Char × List Char)) :
    Nat → List Char → List String
  | 0, _ => []
  | _ + 1, [] => []
  | fuel + 1, c :: cs =>
    match matchAt (c :: cs) with
    | some (m, rest) => String.mk m :: scanAll matchAt fuel rest
    | none => scanAll matchAt fuel cs

/-- `SCRAPING_REGEX_TWITTER.findall`. -/
def findallTwitter (s : String) : List String :=
  scanAll (matchSocialAt ("twitter.com/".data)) (s.data.length + 1) s.data

/-- `SCRAPING_REGEX_FACEBOOK.findall`. -/
def findallFacebook (s : String) : List String :=
  scanAll (matchSocialAt ("facebook.com/".data)) (s.data.length + 1) s.data

/-- `SCRAPING_REGEX_EMAIL.findall`. -/
def findallEmail (s : String) : List String :=
  scanAll matchEmailAt (s.data.length + 1) s.data

/-- `SCRAPING_REGEX_PRODUCT.findall`. -/
def findallProduct (s : String) : List String :=
  scanAll matchProductAt (s.data.length + 1) s.data

/-! ### Class constants of `ShopMediaScrapper` -/

/-- `SCRAPING_ENDPOINTS`. -/
def SCRAPING_ENDPOINTS : List String :=
  ["/", "/pages/about", "/pages/about-us", "/contact", "/contact-us"]

/-- `PRODUCT_LIST_ENDPOINT`. -/
def PRODUCT_LIST_ENDPOINT : String := "/collections/all"

/-- `STORE_INFO_REGEXES`: signal kind ↦ its `findall` (dict in insertion
order). -/
def STORE_INFO_REGEXES : List (String × (String → List String)) :=
  [("twitter", findallTwitter), ("facebook", findallFacebook), ("email", findallEmail)]

/-- `NUMBER_OF_PRODUCTS`. -/
def NUMBER_OF_PRODUCTS : Nat := 5

/-! ### `_select_accurate_socials` (lines 84–118) -/

/-- Lines 94 and 100–105: the scoring words
`host[:host.find('.')].split('-')`. -/
def scoringWords (host : String) : List String :=
  pySplit (pySliceTo host (pyFind host ".")) '-'

/-- Lines 100–105: a candidate's score: percent-decode, strip and
lowercase the link, then count the scoring words occurring in it
(`find(w) > -1`), each word contributing at most 1. -/
def candidateScore (scoring_words : List String) (link : String) : Nat :=
  let sanitized := pyLower (pyStrip (unquote link))
  scoring_words.foldl (fun sc w => if pyFind sanitized w > -1 then sc + 1 else sc) 0

/-- Lines 94–117: the bucket `score_dict[max(score_dict.keys())]`, i.e.
the original candidate strings whose score is maximal, in list order
(Python buckets append in iteration order, so the bucket preserves the
order of `socials_list`). -/
def scoreDictWinners (socials_list : List String) (host : String) : List String :=
  match socials_list.map (fun link => (candidateScore (scoringWords host) link, link)) with
  | [] => []
  | s0 :: srest =>
    let maxScore := srest.foldl (fun m p => max m p.fst) s0.fst
    ((s0 :: srest).filter (fun p => p.fst == maxScore)).map Prod.snd

/-- Lines 84–118, `_select_accurate_socials`: `None` when `score_dict`
is empty (iff `socials_list` is empty), otherwise
`winners[random.randint(0, len(winners)-1)]`.  The indexing is rendered
as `getD _ ""`; under the `randint` contract the index is in range. -/
def _select_accurate_socials (randint : Nat → Nat → Nat) (socials_list : List String)
    (host : String) : Option String :=
  if socials_list.isEmpty then none
  else
    let winners := scoreDictWinners socials_list host
    some (winners.getD (randint 0 (winners.length - 1)) "")

/-! ### `scrape_shop_product_info` (lines 44–82) -/

/-- Python `[*{*links}]`: deduplication by exact string equality.  A
`set` iterates in unspecified order; the model fixes first-seen order
(the claims proved below do not depend on the order). -/
def dedupFirstAux (seen : List String) : List String → List String
  | [] => []
  | x :: xs => if x ∈ seen then dedupFirstAux seen xs
               else x :: dedupFirstAux (x :: seen) xs

/-- Deduplicate, keeping the first occurrence of each string. -/
def dedupFirst (l : List String) : List String := dedupFirstAux [] l

/-- `d[key]` on a parsed JSON value: `none` models the `KeyError` (key
absent) and `TypeError` (not a dict) exceptions, which line 76 catches
alike. -/
def getItem : Json → String → Option Json
  | Json.obj kvs, key => kvs.foldr (fun kv acc => if kv.fst = key then some kv.snd else acc) none
  | _, _ => none

/-- Lines 65 and 73–77: starting from `title, image = None, None`, run
`title = r.json()['product']['title']` then
`image = r.json()['product']['image']['src']`, catching
`JSONDecodeError`/`TypeError`/`KeyError`.  An exception in the second
statement leaves the already-assigned `title` in place. -/
def productTitleImage (j : Option Json) : Option Json × Option Json :=
  match j with
  | none => (none, none)
  | some v =>
    match (getItem v "product").bind (fun p => getItem p "title") with
    | none => (none, none)
    | some t =>
      match (getItem v "product").bind
          (fun p => (getItem p "image").bind (fun im => getItem im "src")) with
      | none => (some t, none)
      | some img => (some t, some img)

/-- Lines 64–80: the `for i, product_link in enumerate(product_links)`
loop.  (The `if not shop_is_productless` guard is always true inside the
loop, since the loop body only runs when `product_links` is non-empty.)
Each slot appends the keys `product_i_title` and `product_i_img_src` to
the output dict. -/
def productLoop (fetch : String → Except String Response) (host : String) :
    List String → Nat → Except String (List (String × Option Json))
  | [], _ => Except.ok []
  | link :: rest, i =>
    match fetch ("http://" ++ host ++ link ++ ".json") with
    | Except.error e => Except.error e
    | Except.ok response =>
      let pair := if response.status_code ≠ 200 then ((none : Option Json), (none : Option Json))
                  else productTitleImage response.json
      match productLoop fetch host rest (i + 1) with
      | Except.error e => Except.error e
      | Except.ok tail =>
        Except.ok (("product_" ++ toString i ++ "_title", pair.1) ::
                   ("product_" ++ toString i ++ "_img_src", pair.2) :: tail)

/-- Lines 44–82, `scrape_shop_product_info`: fetch the listing page; on
non-2xx return the (still empty) output dict; otherwise deduplicate the
product links, cap at `NUMBER_OF_PRODUCTS`, and resolve each retained
link with a secondary fetch. -/
def scrape_shop_product_info (fetch : String → Except String Response) (host : String) :
    Except String (List (String × Option Json)) :=
  match fetch ("http://" ++ host ++ PRODUCT_LIST_ENDPOINT) with
  | Except.error e => Except.error e
  | Except.ok response =>
    if response.status_code ≠ 200 then Except.ok []
    else
      productLoop fetch host
        ((dedupFirst (findallProduct response.text)).take NUMBER_OF_PRODUCTS) 0

/-! ### `scrape_shop_contact_info` (lines 120–139) -/

/-- Line 134, `output[key].extend(found)` on the association-list model
of the dict (the key is always present). -/
def alistExtend : List (String × List String) → String → List String →
    List (String × List String)
  | [], _, _ => []
  | kv :: rest, key, found =>
    (if kv.fst = key then (kv.fst, kv.snd ++ found) else kv) :: alistExtend rest key found

/-- Lines 123–134: the endpoint loop.  For each endpoint fetch the page;
on non-2xx skip it; otherwise extend every signal's bucket with that
regex's `findall` over the body (the `if found is not None` guard is
always true: `findall` returns a list).  The second component records
the URIs passed to `requests.get`, in order — pure instrumentation, the
first component is the dict computed by the source. -/
def contactEndpointLoop (fetch : String → Except String Response) (host : String) :
    List String → List (String × List String) → List String →
    Except String (List (String × List String) × List String)
  | [], out, trace => Except.ok (out, trace)
  | endpoint :: rest, out, trace =>
    match fetch ("http://" ++ host ++ endpoint) with
    | Except.error e => Except.error e
    | Except.ok response =>
      if response.status_code ≠ 200 then
        contactEndpointLoop fetch host rest out (trace ++ ["http://" ++ host ++ endpoint])
      else
        contactEndpointLoop fetch host rest
          (STORE_INFO_REGEXES.foldl (fun o kv => alistExtend o kv.fst (kv.snd response.text)) out)
          (trace ++ ["http://" ++ host ++ endpoint])

/-- Lines 120–139 with the fetch trace: initialize
`output = {key: [] for key in STORE_INFO_REGEXES}`, run the endpoint
loop, then replace each bucket by `_select_accurate_socials`. -/
def scrape_shop_contact_info_traced (randint : Nat → Nat → Nat)
    (fetch : String → Except String Response) (host : String) :
    Except String (List (String × Option String) × List String) :=
  match contactEndpointLoop fetch host SCRAPING_ENDPOINTS
      (STORE_INFO_REGEXES.map (fun kv => (kv.fst, ([] : List String)))) [] with
  | Except.error e => Except.error e
  | Except.ok (out, trace) =>
    Except.ok (out.map (fun kv => (kv.fst, _select_accurate_socials randint kv.snd host)), trace)

/-- Lines 120–139, `scrape_shop_contact_info`: the traced run without
the instrumentation. -/
def scrape_shop_contact_info (randint : Nat → Nat → Nat)
    (fetch : String → Except String Response) (host : String) :
    Except String (List (String × Option String)) :=
  (scrape_shop_contact_info_traced randint fetch host).map Prod.fst

/-! ### Helper lemmas -/

theorem mem_dedupFirstAux (x : String) (l : List String) : ∀ seen,
    x ∈ dedupFirstAux seen l ↔ x ∈ l ∧ x ∉ seen := by
  induction l with
  | nil => intro seen; simp [dedupFirstAux]
  | cons y ys ih =>
    intro seen
    simp only [dedupFirstAux]
    split
    · rename_i hy
      rw [ih seen]
      simp only [List.mem_cons]
      constructor
      · rintro ⟨hx, hns⟩; exact ⟨Or.inr hx, hns⟩
      · rintro ⟨rfl | hx, hns⟩
        · exact absurd hy hns
        · exact ⟨hx, hns⟩
    · rename_i hy
      simp only [List.mem_cons, ih (y :: seen)]
      by_cases hxy : x = y
      · subst hxy; simp [hy]
      · simp [hxy]

theorem nodup_dedupFirstAux (l : List String) : ∀ seen, (dedupFirstAux seen l).Nodup := by
  induction l with
  | nil => intro seen; simp [dedupFirstAux]
  | cons y ys ih =>
    intro seen
    simp only [dedupFirstAux]
    split
    · exact ih seen
    · refine List.nodup_cons.mpr ⟨fun hmem => ?_, ih (y :: seen)⟩
      exact ((mem_dedupFirstAux y ys (y :: seen)).mp hmem).2 (List.mem_cons_self y seen)

theorem mem_dedupFirst (x : String) (l : List String) : x ∈ dedupFirst l ↔ x ∈ l := by
  unfold dedupFirst
  rw [mem_dedupFirstAux]
  simp

theorem nodup_dedupFirst (l : List String) : (dedupFirst l).Nodup :=
  nodup_dedupFirstAux l []

theorem foldl_max_attained (l : List (Nat × String)) : ∀ a : Nat,
    l.foldl (fun m p => max m p.fst) a = a ∨
    ∃ p ∈ l, p.fst = l.foldl (fun m p => max m p.fst) a := by
  induction l with
  | nil => intro a; exact Or.inl rfl
  | cons q qs ih =>
    intro a
    simp only [List.foldl_cons]
    rcases ih (max a q.fst) with h | ⟨p, hp, hpe⟩
    · rw [h]
      rcases max_choice a q.fst with hm | hm
      · exact Or.inl hm
      · exact Or.inr ⟨q, List.mem_cons_self q qs, hm.symm⟩
    · exact Or.inr ⟨p, List.mem_cons_of_mem q hp, hpe⟩

theorem scoreDictWinners_ne_nil (socials : List String) (host : String)
    (h : socials ≠ []) : scoreDictWinners socials host ≠ [] := by
  unfold scoreDictWinners
  cases socials with
  | nil => exact absurd rfl h
  | cons s ss =>
    simp only [List.map_cons]
    intro hcon
    set f : String → Nat × String := fun link => (candidateScore (scoringWords host) link, link)
      with hf
    set maxScore := (ss.map f).foldl (fun m p => max m p.fst) (f s).fst with hmax
    have hwin : ∃ p ∈ f s :: ss.map f, p.fst = maxScore := by
      rcases foldl_max_attained (ss.map f) (f s).fst with hA | ⟨p, hp, hpe⟩
      · exact ⟨f s, List.mem_cons_self _ _, hA.symm ▸ rfl⟩
      · exact ⟨p, List.mem_cons_of_mem _ hp, hpe⟩
    obtain ⟨p, hpmem, hpeq⟩ := hwin
    have hpf : p ∈ (f s :: ss.map f).filter (fun p => p.fst == maxScore) :=
      List.mem_filter.mpr ⟨hpmem, by simp [hpeq]⟩
    have : p.snd ∈ ((f s :: ss.map f).filter (fun p => p.fst == maxScore)).map Prod.snd :=
      List.mem_map_of_mem Prod.snd hpf
    rw [hcon] at this
    exact absurd this (List.not_mem_nil p.snd)

theorem scoreDictWinners_subset (socials : List String) (host : String) :
    ∀ w ∈ scoreDictWinners socials host, w ∈ socials := by
  unfold scoreDictWinners
  cases socials with
  | nil => simp
  | cons s ss =>
    intro w hw
    simp only [List.map_cons] at hw
    obtain ⟨p, hpf, rfl⟩ := List.mem_map.mp hw
    have hpmem := List.mem_of_mem_filter hpf
    rcases List.mem_cons.mp hpmem with rfl | hp
    · exact List.mem_cons_self _ _
    · obtain ⟨x, hx, rfl⟩ := List.mem_map.mp hp
      exact List.mem_cons_of_mem _ hx

theorem productLoop_length (fetch : String → Except String Response) (host : String) :
    ∀ (links : List String) (i : Nat) (out : List (String × Option Json)),
      productLoop fetch host links i = Except.ok out → out.length = 2 * links.length := by
  intro links
  induction links with
  | nil =>
    intro i out h
    simp only [productLoop] at h
    cases h
    rfl
  | cons link rest ih =>
    intro i out h
    simp only [productLoop] at h
    cases hf : fetch ("http://" ++ host ++ link ++ ".json") with
    | error e => rw [hf] at h; cases h
    | ok response =>
      rw [hf] at h
      cases hrec : productLoop fetch host rest (i + 1) with
      | error e => rw [hrec] at h; cases h
      | ok tail =>
        rw [hrec] at h
        cases h
        have := ih (i + 1) tail hrec
        simp [List.length_cons, this]
        omega

theorem alistExtend_keys (o : List (String × List String)) (key : String)
    (found : List String) : (alistExtend o key found).map Prod.fst = o.map Prod.fst := by
  induction o with
  | nil => rfl
  | cons kv rest ih =>
    simp only [alistExtend, List.map_cons, ih]
    split <;> rfl

theorem contactEndpointLoop_keys (fetch : String → Except String Response) (host : String) :
    ∀ (eps : List String) (out : List (String × List String)) (trace : List String)
      (res : List (String × List String) × List String),
      contactEndpointLoop fetch host eps out trace = Except.ok res →
      res.1.map Prod.fst = out.map Prod.fst := by
  intro eps
  induction eps with
  | nil =>
    intro out trace res h
    simp only [contactEndpointLoop] at h
    cases h
    rfl
  | cons ep rest ih =>
    intro out trace res h
    simp only [contactEndpointLoop] at h
    cases hf : fetch ("http://" ++ host ++ ep) with
    | error e => rw [hf] at h; cases h
    | ok response =>
      simp only [hf] at h
      by_cases hs : response.status_code ≠ 200
      · rw [if_pos hs] at h
        exact ih _ _ _ h
      · rw [if_neg hs] at h
        rw [ih _ _ _ h]
        simp only [STORE_INFO_REGEXES, List.foldl_cons, List.foldl_nil]
        rw [alistExtend_keys, alistExtend_keys, alistExtend_keys]

theorem contactEndpointLoop_all404 (fetch : String → Except String Response) (host : String)
    (h : ∀ uri, ∃ r, fetch uri = Except.ok r ∧ r.status_code ≠ 200) :
    ∀ (eps : List String) (out : List (String × List String)) (trace : List String),
      ∃ tr, contactEndpointLoop fetch host eps out trace = Except.ok (out, tr) := by
  intro eps
  induction eps with
  | nil => intro out trace; exact ⟨trace, rfl⟩
  | cons ep rest ih =>
    intro out trace
    obtain ⟨r, hr, hs⟩ := h ("http://" ++ host ++ ep)
    obtain ⟨tr, htr⟩ := ih out (trace ++ ["http://" ++ host ++ ep])
    refine ⟨tr, ?_⟩
    simp only [contactEndpointLoop]
    simp only [hr]
    rw [if_pos hs]
    exact htr

theorem contactEndpointLoop_trace (fetch : String → Except String Response) (host : String)
    (h : ∀ uri, ∃ r, fetch uri = Except.ok r) :
    ∀ (eps : List String) (out : List (String × List String)) (trace : List String),
      ∃ res, contactEndpointLoop fetch host eps out trace = Except.ok res ∧
        res.2 = trace ++ eps.map (fun e => "http://" ++ host ++ e) := by
  intro eps
  induction eps with
  | nil => intro out trace; exact ⟨(out, trace), rfl, by simp⟩
  | cons ep rest ih =>
    intro out trace
    obtain ⟨r, hr⟩ := h ("http://" ++ host ++ ep)
    simp only [contactEndpointLoop]
    simp only [hr]
    by_cases hs : r.status_code ≠ 200
    · rw [if_pos hs]
      obtain ⟨res, hres, htr⟩ := ih out (trace ++ ["http://" ++ host ++ ep])
      exact ⟨res, hres, by simp [htr]⟩
    · rw [if_neg hs]
      obtain ⟨res, hres, htr⟩ := ih
        (STORE_INFO_REGEXES.foldl (fun o kv => alistExtend o kv.fst (kv.snd r.text)) out)
        (trace ++ ["http://" ++ host ++ ep])
      exact ⟨res, hres, by simp [htr]⟩

theorem not_upper_of_localChar (c : Char) (h : isLocalChar c = true) :
    isUpperAscii c = false := by
  unfold isLocalChar at h
  unfold isUpperAscii
  simp only [Bool.or_eq_true, Bool.and_eq_true, decide_eq_true_eq, beq_iff_eq] at h
  simp only [Bool.and_eq_false_iff, decide_eq_false_iff_not]
  rcases h with ((⟨h1, _⟩ | ⟨_, h2⟩) | rfl) | rfl
  · exact Or.inr (fun hZ => absurd (le_trans h1 hZ) (by decide))
  · exact Or.inl (fun hA => absurd (le_trans hA h2) (by decide))
  · exact Or.inl (fun hA => absurd hA (by decide))
  · exact Or.inl (fun hA => absurd hA (by decide))

theorem not_upper_of_domainChar (c : Char) (h : isDomainChar c = true) :
    isUpperAscii c = false := by
  unfold isDomainChar at h
  simp only [Bool.or_eq_true, Bool.and_eq_true, decide_eq_true_eq, beq_iff_eq] at h
  rcases h with ⟨h1, h2⟩ | rfl
  · exact not_upper_of_localChar c (by
      unfold isLocalChar
      simp only [Bool.or_eq_true, Bool.and_eq_true, decide_eq_true_eq]
      exact Or.inl (Or.inl (Or.inl ⟨h1, h2⟩)))
  · rfl

theorem matchEmailAt_chars (l m rest : List Char)
    (h : matchEmailAt l = some (m, rest)) : ∀ c ∈ m, isUpperAscii c = false := by
  unfold matchEmailAt at h
  cases hloc : l.takeWhile isLocalChar with
  | nil => rw [hloc] at h; cases h
  | cons a as =>
    rw [hloc] at h
    cases hdrop : l.dropWhile isLocalChar with
    | nil => rw [hdrop] at h; cases h
    | cons b r2 =>
      rw [hdrop] at h
      simp only [] at h
      by_cases hb : b = '@'
      · rw [if_pos hb] at h
        subst hb
        cases hdom : r2.takeWhile isDomainChar with
        | nil => rw [hdom] at h; cases h
        | cons d ds =>
          rw [hdom] at h
          cases h
          intro c hc
          rcases List.mem_append.mp hc with hcl | hcr
          · refine not_upper_of_localChar c (List.mem_takeWhile_imp (p := isLocalChar) (l := l) ?_)
            rw [hloc]; exact hcl
          · rcases List.mem_cons.mp hcr with rfl | hcd
            · rfl
            · refine not_upper_of_domainChar c (List.mem_takeWhile_imp (p := isDomainChar) (l := r2) ?_)
              rw [hdom]; exact hcd
      · rw [if_neg hb] at h; cases h

theorem scanAll_chars (matchAt : List Char → Option (List Char × List Char))
    (P : Char → Prop)
    (hm : ∀ l m rest, matchAt l = some (m, rest) → ∀ c ∈ m, P c) :
    ∀ (fuel : Nat) (l : List Char) (s : String),
      s ∈ scanAll matchAt fuel l → ∀ c ∈ s.data, P c := by
  intro fuel
  induction fuel with
  | zero => intro l s hs; simp [scanAll] at hs
  | succ n ih =>
    intro l s hs
    cases l with
    | nil => simp [scanAll] at hs
    | cons x xs =>
      simp only [scanAll] at hs
      cases hma : matchAt (x :: xs) with
      | none =>
        rw [hma] at hs
        exact ih xs s hs
      | some pr =>
        obtain ⟨m, rest⟩ := pr
        rw [hma] at hs
        rcases List.mem_cons.mp hs with rfl | hrec
        · exact hm (x :: xs) m rest hma
        · exact ih rest s hrec

theorem pyFindAux_dot_none (l : List Char) : ∀ i, (∀ c ∈ l, c ≠ '.') →
    pyFindAux [Char.ofNat 46] i l = none := by
  induction l with
  | nil => intro i _; rfl
  | cons c cs ih =>
    intro i h
    have hc : c ≠ '.' := h c (List.mem_cons_self c cs)
    simp only [pyFindAux]
    rw [if_neg]
    · exact ih (i + 1) (fun x hx => h x (List.mem_cons_of_mem c hx))
    · intro hpre
      simp only [List.isPrefixOf, Bool.and_eq_true, beq_iff_eq] at hpre
      exact hc hpre.1.symm

theorem pyFind_dot_eq_neg_one (host : String) (h : ∀ c ∈ host.data, c ≠ '.') :
    pyFind host "." = -1 := by
  unfold pyFind
  rw [show (".".data) = [Char.ofNat 46] from rfl, pyFindAux_dot_none host.data 0 h]

/-! ### The claims -/

/-- C2: `_select_accurate_socials` scores each candidate by the tokens
of the host before the first `.` split on `-` (here
`["cool","shoes","shop"]`), counting each token at most once as a
substring of the percent-decoded, stripped, lowercased candidate, and
draws the winner from the maximum-score group; on the candidates
`coolshoes` (score 2) vs `randomthing` (score 0) it deterministically
returns the `coolshoes` link.  The hypothesis is the `random.randint`
contract at the only call that can occur (`randint(0, 0) = 0`). -/
theorem c2_thm (randint : Nat → Nat → Nat) (hr : randint 0 0 = 0) :
    _select_accurate_socials randint
        ["http://facebook.com/coolshoes", "http://facebook.com/randomthing"]
        "cool-shoes-shop.myshopify.com" = some "http://facebook.com/coolshoes" ∧
    scoringWords "cool-shoes-shop.myshopify.com" = ["cool", "shoes", "shop"] ∧
    candidateScore ["cool", "shoes", "shop"] "http://facebook.com/coolshoes" = 2 ∧
    candidateScore ["cool", "shoes", "shop"] "http://facebook.com/randomthing" = 0 ∧
    scoreDictWinners ["http://facebook.com/coolshoes", "http://facebook.com/randomthing"]
        "cool-shoes-shop.myshopify.com" = ["http://facebook.com/coolshoes"] := by
  refine ⟨?_, rfl, rfl, rfl, rfl⟩
  have h : _select_accurate_socials randint
      ["http://facebook.com/coolshoes", "http://facebook.com/randomthing"]
      "cool-shoes-shop.myshopify.com" =
      some (List.getD ["http://facebook.com/coolshoes"] (randint 0 0) "") := rfl
  rw [h, hr]
  rfl

/-- Witness for C2 at the concrete random source `fun a _ => a`. -/
theorem c2_witness :
    _select_accurate_socials (fun a _ => a)
        ["http://facebook.com/coolshoes", "http://facebook.com/randomthing"]
        "cool-shoes-shop.myshopify.com" = some "http://facebook.com/coolshoes" :=
  (c2_thm (fun a _ => a) rfl).1

/-- C5: `_select_accurate_socials` returns `None` exactly when the
candidate list is empty and never raises; on a non-empty list it
returns one of the original candidate strings, drawn from the
maximum-score bucket `score_dict[max(score_dict.keys())]`.  The
hypothesis is the `random.randint` contract `randint 0 b ≤ b`. -/
theorem c5_thm (randint : Nat → Nat → Nat) (hrand : ∀ b, randint 0 b ≤ b)
    (socials : List String) (host : String) :
    (_select_accurate_socials randint socials host = none ↔ socials = []) ∧
    (∀ w, _select_accurate_socials randint socials host = some w →
      w ∈ scoreDictWinners socials host ∧ w ∈ socials) := by
  cases socials with
  | nil =>
    refine ⟨by simp [_select_accurate_socials], ?_⟩
    intro w hw
    simp [_select_accurate_socials] at hw
  | cons s ss =>
    refine ⟨by simp [_select_accurate_socials], ?_⟩
    intro w hw
    simp only [_select_accurate_socials, List.isEmpty_cons, Bool.false_eq_true,
      if_false, Option.some.injEq] at hw
    have hne : scoreDictWinners (s :: ss) host ≠ [] :=
      scoreDictWinners_ne_nil (s :: ss) host (by simp)
    have hpos : 0 < (scoreDictWinners (s :: ss) host).length := List.length_pos.mpr hne
    have hidx : randint 0 ((scoreDictWinners (s :: ss) host).length - 1) <
        (scoreDictWinners (s :: ss) host).length :=
      lt_of_le_of_lt (hrand _) (Nat.sub_lt hpos Nat.one_pos)
    rw [List.getD_eq_getElem _ _ hidx] at hw
    subst hw
    exact ⟨List.getElem_mem hidx,
      scoreDictWinners_subset (s :: ss) host _ (List.getElem_mem hidx)⟩

/-- Witness for C5 at a concrete random source and candidate list. -/
theorem c5_witness :
    (_select_accurate_socials (fun _ _ => 0) ["http://twitter.com/a"] "x.com" = none ↔
      (["http://twitter.com/a"] : List String) = []) ∧
    ("http://twitter.com/a" ∈ scoreDictWinners ["http://twitter.com/a"] "x.com" ∧
      "http://twitter.com/a" ∈ (["http://twitter.com/a"] : List String)) :=
  ⟨(c5_thm (fun _ _ => 0) (fun b => Nat.zero_le b) ["http://twitter.com/a"] "x.com").1,
   (c5_thm (fun _ _ => 0) (fun b => Nat.zero_le b) ["http://twitter.com/a"] "x.com").2
     "http://twitter.com/a" rfl⟩

/-- C10: for a host with no `.`, `host.find('.')` is `-1`, so the
slice `host[:-1]` drops the final character: the scoring words are the
host minus its last character, split on `-`. -/
theorem c10_thm (host : String) (h : ∀ c ∈ host.data, c ≠ '.') :
    scoringWords host = pySplit (String.mk host.data.dropLast) '-' := by
  unfold scoringWords
  rw [pyFind_dot_eq_neg_one host h]
  have hslice : pySliceTo host (-1) = String.mk host.data.dropLast := by
    unfold pySliceTo
    simp only [if_pos (by norm_num : (-1 : Int) < 0)]
    congr 1
    rw [List.dropLast_eq_take]
    congr 1
    simp only [Int.ofNat_eq_coe]
    omega
  rw [hslice]

/-- Witness for C10 at the dot-free host `localhost`. -/
theorem c10_witness :
    scoringWords "localhost" = pySplit (String.mk ("localhost".data.dropLast)) '-' :=
  c10_thm "localhost" (by decide)

/-- C1 counterexample: when the listing endpoint returns a non-2xx
status, `scrape_shop_product_info` returns the still-empty dict — zero
product records, not `N = 5` placeholder records. -/
theorem c1_counterexample :
    scrape_shop_product_info (fun _ => Except.ok ⟨404, "", none⟩) "example.com" =
      Except.ok [] :=
  rfl

/-- C1 (amended): `scrape_shop_product_info` returns one record (a
title entry and an image entry) per retained product link — i.e.
`min 5 (number of distinct links)` records, with no padding — and an
empty result when the listing fetch is non-2xx; it never returns more
than `NUMBER_OF_PRODUCTS` records. -/
theorem c1_amended_thm (fetch : String → Except String Response) (host : String)
    (r : Response) (hr : fetch ("http://" ++ host ++ PRODUCT_LIST_ENDPOINT) = Except.ok r) :
    ∀ out, scrape_shop_product_info fetch host = Except.ok out →
      out.length = (if r.status_code = 200
        then 2 * ((dedupFirst (findallProduct r.text)).take NUMBER_OF_PRODUCTS).length
        else 0) ∧
      out.length ≤ 2 * NUMBER_OF_PRODUCTS := by
  intro out h
  unfold scrape_shop_product_info at h
  simp only [hr] at h
  by_cases hs : r.status_code = 200
  · have hne : ¬ r.status_code ≠ 200 := by simp [hs]
    rw [if_neg hne] at h
    have hlen := productLoop_length fetch host
      ((dedupFirst (findallProduct r.text)).take NUMBER_OF_PRODUCTS) 0 out h
    refine ⟨by rw [if_pos hs]; exact hlen, ?_⟩
    rw [hlen]
    have := List.length_take_le NUMBER_OF_PRODUCTS (dedupFirst (findallProduct r.text))
    omega
  · rw [if_pos hs] at h
    cases h
    simp [hs]

/-- Witness for C1 (amended) at a concrete 404 fetch. -/
theorem c1_witness :
    ([] : List (String × Option Json)).length = (if (404 : Nat) = 200
      then 2 * ((dedupFirst (findallProduct "")).take NUMBER_OF_PRODUCTS).length
      else 0) ∧
    ([] : List (String × Option Json)).length ≤ 2 * NUMBER_OF_PRODUCTS :=
  c1_amended_thm (fun _ => Except.ok ⟨404, "", none⟩) "example.com" ⟨404, "", none⟩ rfl [] rfl

/-- C4 counterexample: a transport-level exception from `requests.get`
(modelled as `Except.error`) propagates out of both per-shop scraping
functions instead of degrading to placeholders. -/
theorem c4_counterexample :
    scrape_shop_product_info (fun _ => Except.error "ConnectionError") "example.com" =
      Except.error "ConnectionError" ∧
    scrape_shop_contact_info (fun _ _ => 0) (fun _ => Except.error "ConnectionError")
      "example.com" = Except.error "ConnectionError" :=
  ⟨rfl, rfl⟩

/-- C4 (amended): the script has no handler for transport-level
exceptions: if the first `requests.get` of either per-shop scraping
function raises, the exception propagates out of that function
unchanged (only a non-2xx *status* is handled in-scope). -/
theorem c4_amended_thm (fetch : String → Except String Response) (host : String) (e : String)
    (h1 : fetch ("http://" ++ host ++ PRODUCT_LIST_ENDPOINT) = Except.error e)
    (h2 : fetch ("http://" ++ host ++ "/") = Except.error e) :
    scrape_shop_product_info fetch host = Except.error e ∧
    ∀ randint, scrape_shop_contact_info randint fetch host = Except.error e := by
  constructor
  · unfold scrape_shop_product_info
    simp only [h1]
  · intro randint
    unfold scrape_shop_contact_info scrape_shop_contact_info_traced SCRAPING_ENDPOINTS
      contactEndpointLoop
    simp only [h2]
    rfl

/-- Witness for C4 (amended) at a concrete always-failing fetch. -/
theorem c4_witness :
    scrape_shop_product_info (fun _ => Except.error "timeout") "example.com" =
      Except.error "timeout" ∧
    scrape_shop_contact_info (fun _ _ => 0) (fun _ => Except.error "timeout")
      "example.com" = Except.error "timeout" :=
  ⟨(c4_amended_thm (fun _ => Except.error "timeout") "example.com" "timeout" rfl rfl).1,
   (c4_amended_thm (fun _ => Except.error "timeout") "example.com" "timeout" rfl rfl).2
     (fun _ _ => 0)⟩

/-- C6: `scrape_shop_contact_info` always returns a dict with exactly
the keys `twitter`, `facebook`, `email` (never a partial mapping), and
when every configured endpoint answers with a non-2xx status all three
entries are `None` and no exception is raised. -/
theorem c6_thm (randint : Nat → Nat → Nat) (fetch : String → Except String Response)
    (host : String) :
    (∀ out, scrape_shop_contact_info randint fetch host = Except.ok out →
      out.map Prod.fst = ["twitter", "facebook", "email"]) ∧
    ((∀ uri, ∃ r, fetch uri = Except.ok r ∧ r.status_code ≠ 200) →
      scrape_shop_contact_info randint fetch host =
        Except.ok [("twitter", none), ("facebook", none), ("email", none)]) := by
  constructor
  · intro out h
    unfold scrape_shop_contact_info scrape_shop_contact_info_traced at h
    cases hloop : contactEndpointLoop fetch host SCRAPING_ENDPOINTS
        (STORE_INFO_REGEXES.map (fun kv => (kv.fst, ([] : List String)))) [] with
    | error e => rw [hloop] at h; cases h
    | ok res =>
      obtain ⟨o, tr⟩ := res
      rw [hloop] at h
      simp only [Except.map] at h
      cases h
      have hkeys := contactEndpointLoop_keys fetch host SCRAPING_ENDPOINTS _ _ _ hloop
      simp only [List.map_map] at *
      rw [show (Prod.fst ∘ fun kv : String × List String =>
        (kv.fst, _select_accurate_socials randint kv.snd host)) = Prod.fst from rfl]
      rw [hkeys]
      rfl
  · intro hall
    obtain ⟨tr, htr⟩ := contactEndpointLoop_all404 fetch host hall SCRAPING_ENDPOINTS
      (STORE_INFO_REGEXES.map (fun kv => (kv.fst, ([] : List String)))) []
    unfold scrape_shop_contact_info scrape_shop_contact_info_traced
    rw [htr]
    rfl

/-- Witness for C6 at a concrete all-404 fetch. -/
theorem c6_witness :
    ([("twitter", (none : Option String)), ("facebook", none), ("email", none)].map
        Prod.fst = ["twitter", "facebook", "email"]) ∧
    scrape_shop_contact_info (fun _ _ => 0) (fun _ => Except.ok ⟨404, "", none⟩)
      "example.com" = Except.ok [("twitter", none), ("facebook", none), ("email", none)] := by
  have h2 := (c6_thm (fun _ _ => 0) (fun _ => Except.ok ⟨404, "", none⟩) "example.com").2
    (fun uri => ⟨⟨404, "", none⟩, rfl, by decide⟩)
  exact ⟨(c6_thm (fun _ _ => 0) (fun _ => Except.ok ⟨404, "", none⟩) "example.com").1 _ h2, h2⟩

/-- Listing body for the C3 counterexample: all three signals occur on
the first endpoint. -/
def bodyC3 : String := "http://twitter.com/a http://facebook.com/b mail@shopx.com"

/-- Fetch for the C3 counterexample: the first endpoint `/` answers 200
with all three signals present, every other endpoint answers 404. -/
def fetchC3 : String → Except String Response :=
  fun uri => if uri = "http://shopx.com/" then Except.ok ⟨200, bodyC3, none⟩
             else Except.ok ⟨404, "", none⟩

/-- C3 counterexample: all three signal regexes match on the body of
the first endpoint, yet `scrape_shop_contact_info` still issues a GET
to all five configured endpoints (the trace has five URIs) — there is
no early termination. -/
theorem c3_counterexample :
    findallTwitter bodyC3 ≠ [] ∧ findallFacebook bodyC3 ≠ [] ∧ findallEmail bodyC3 ≠ [] ∧
    scrape_shop_contact_info_traced (fun _ _ => 0) fetchC3 "shopx.com" =
      Except.ok ([("twitter", some "http://twitter.com/a"),
                  ("facebook", some "http://facebook.com/b"),
                  ("email", some "mail@shopx.com")],
                 ["http://shopx.com/", "http://shopx.com/pages/about",
                  "http://shopx.com/pages/about-us", "http://shopx.com/contact",
                  "http://shopx.com/contact-us"]) :=
  ⟨by decide, by decide, by decide, rfl⟩

/-- C3 (amended): `scrape_shop_contact_info` has no early termination:
whenever no fetch raises, it issues a GET to every configured endpoint,
in order, regardless of which signals have already been matched. -/
theorem c3_amended_thm (randint : Nat → Nat → Nat)
    (fetch : String → Except String Response) (host : String)
    (h : ∀ uri, ∃ r, fetch uri = Except.ok r) :
    ∃ res, scrape_shop_contact_info_traced randint fetch host = Except.ok res ∧
      res.2 = SCRAPING_ENDPOINTS.map (fun e => "http://" ++ host ++ e) := by
  obtain ⟨⟨out, trace⟩, hres, htr⟩ := contactEndpointLoop_trace fetch host h
    SCRAPING_ENDPOINTS (STORE_INFO_REGEXES.map (fun kv => (kv.fst, ([] : List String)))) []
  refine ⟨(out.map (fun kv => (kv.fst, _select_accurate_socials randint kv.snd host)), trace),
    ?_, ?_⟩
  · unfold scrape_shop_contact_info_traced
    rw [hres]
  · simpa using htr

/-- Witness for C3 (amended) at a concrete all-404 fetch. -/
theorem c3_witness :
    ∃ res, scrape_shop_contact_info_traced (fun _ _ => 0)
        (fun _ => Except.ok ⟨404, "", none⟩) "w.com" = Except.ok res ∧
      res.2 = SCRAPING_ENDPOINTS.map (fun e => "http://" ++ "w.com" ++ e) :=
  c3_amended_thm (fun _ _ => 0) (fun _ => Except.ok ⟨404, "", none⟩) "w.com"
    (fun _ => ⟨⟨404, "", none⟩, rfl⟩)

/-- C7: product links are deduplicated by exact string equality before
the `NUMBER_OF_PRODUCTS` cap is applied: the deduplicated list has
exactly the distinct matched links with no repetition, and the retained
list (what `scrape_shop_product_info` feeds to the per-product fetches)
holds at most 5 pairwise-distinct links, all drawn from the matches. -/
theorem c7_thm (body : String) :
    ((dedupFirst (findallProduct body)).take NUMBER_OF_PRODUCTS).length ≤
      NUMBER_OF_PRODUCTS ∧
    ((dedupFirst (findallProduct body)).take NUMBER_OF_PRODUCTS).Nodup ∧
    (∀ x, x ∈ dedupFirst (findallProduct body) ↔ x ∈ findallProduct body) ∧
    (∀ x, x ∈ (dedupFirst (findallProduct body)).take NUMBER_OF_PRODUCTS →
      x ∈ findallProduct body) := by
  refine ⟨List.length_take_le _ _,
    (nodup_dedupFirst (findallProduct body)).sublist (List.take_sublist _ _),
    fun x => mem_dedupFirst x (findallProduct body), fun x hx => ?_⟩
  exact (mem_dedupFirst x (findallProduct body)).mp (List.take_subset _ _ hx)

/-- Listing body for the C7 witness: the same product link twice. -/
def bodyC7 : String :=
  "<a href=\"/collections/all/products/boot\"> <a href=\"/collections/all/products/boot\">"

/-- Witness for C7 on a listing body holding the same link twice. -/
theorem c7_witness :
    ((dedupFirst (findallProduct bodyC7)).take NUMBER_OF_PRODUCTS).length ≤
      NUMBER_OF_PRODUCTS ∧
    ((dedupFirst (findallProduct bodyC7)).take NUMBER_OF_PRODUCTS).Nodup ∧
    ("/collections/all/products/boot" ∈ dedupFirst (findallProduct bodyC7) ↔
      "/collections/all/products/boot" ∈ findallProduct bodyC7) ∧
    ("/collections/all/products/boot" ∈ findallProduct bodyC7) :=
  ⟨(c7_thm bodyC7).1, (c7_thm bodyC7).2.1,
   (c7_thm bodyC7).2.2.1 "/collections/all/products/boot",
   (c7_thm bodyC7).2.2.2 "/collections/all/products/boot" (by decide)⟩

/-- Listing fetch and detail fetch for the C8 counterexample: one
product link; its detail endpoint answers 200 with a JSON body that has
`product.title` but no `product.image`. -/
def fetchC8 : String → Except String Response :=
  fun uri =>
    if uri = "http://h/collections/all" then
      Except.ok ⟨200, "<a href=\"/collections/all/products/boot\">", none⟩
    else if uri = "http://h/collections/all/products/boot.json" then
      Except.ok ⟨200, "",
        some (Json.obj [("product", Json.obj [("title", Json.str "Boot")])])⟩
    else Except.ok ⟨404, "", none⟩

/-- C8 counterexample: a detail body that has `product.title` but lacks
the image field does NOT collapse the slot to an absent/absent
placeholder — the already-assigned title survives the exception raised
by `['image']`, so the slot is (present title, absent image). -/
theorem c8_counterexample :
    scrape_shop_product_info fetchC8 "h" =
      Except.ok [("product_0_title", some (Json.str "Boot")),
                 ("product_0_img_src", none)] :=
  rfl

/-- C8 (amended): per-product failures are contained to their slot,
with this asymmetry: an unparsable body or one lacking
`product.title` yields a fully absent slot, while a body with a title
but no `product.image.src` keeps the title and only the image is
absent; each slot's value depends only on that link's own response, the
remaining slots being computed independently (and no such failure aborts
the scrape). -/
theorem c8_amended_thm :
    (productTitleImage none = (none, none)) ∧
    (∀ v : Json, (getItem v "product").bind (fun p => getItem p "title") = none →
      productTitleImage (some v) = (none, none)) ∧
    (∀ (v : Json) (t : Json),
      (getItem v "product").bind (fun p => getItem p "title") = some t →
      (getItem v "product").bind
        (fun p => (getItem p "image").bind (fun im => getItem im "src")) = none →
      productTitleImage (some v) = (some t, none)) ∧
    (∀ (fetch : String → Except String Response) (host link : String)
      (rest : List String) (i : Nat) (r : Response),
      fetch ("http://" ++ host ++ link ++ ".json") = Except.ok r →
      productLoop fetch host (link :: rest) i =
        (productLoop fetch host rest (i + 1)).map (fun tail =>
          ("product_" ++ toString i ++ "_title",
            (if r.status_code ≠ 200 then ((none : Option Json), (none : Option Json))
             else productTitleImage r.json).1) ::
          ("product_" ++ toString i ++ "_img_src",
            (if r.status_code ≠ 200 then ((none : Option Json), (none : Option Json))
             else productTitleImage r.json).2) :: tail)) := by
  refine ⟨rfl, ?_, ?_, ?_⟩
  · intro v hv
    simp only [productTitleImage, hv]
  · intro v t ht him
    simp only [productTitleImage, ht, him]
  · intro fetch host link rest i r hr
    simp only [productLoop, hr]
    cases hrec : productLoop fetch host rest (i + 1) with
    | error e => rfl
    | ok tail => rfl

/-- Witness for C8 (amended) at concrete JSON values and a concrete
one-product fetch. -/
theorem c8_witness :
    (productTitleImage (some (Json.obj [("product", Json.obj [])])) = (none, none)) ∧
    (productTitleImage (some (Json.obj [("product", Json.obj [("title", Json.str "Boot")])]))
      = (some (Json.str "Boot"), none)) ∧
    (productLoop fetchC8 "h" ["/collections/all/products/boot"] 0 =
      (productLoop fetchC8 "h" [] 1).map (fun tail =>
        ("product_" ++ toString 0 ++ "_title",
          (if (200 : Nat) ≠ 200 then ((none : Option Json), (none : Option Json))
           else productTitleImage (some (Json.obj
             [("product", Json.obj [("title", Json.str "Boot")])]))).1) ::
        ("product_" ++ toString 0 ++ "_img_src",
          (if (200 : Nat) ≠ 200 then ((none : Option Json), (none : Option Json))
           else productTitleImage (some (Json.obj
             [("product", Json.obj [("title", Json.str "Boot")])]))).2) :: tail)) :=
  ⟨c8_amended_thm.2.1 (Json.obj [("product", Json.obj [])]) rfl,
   c8_amended_thm.2.2.1 (Json.obj [("product", Json.obj [("title", Json.str "Boot")])])
     (Json.str "Boot") rfl rfl,
   c8_amended_thm.2.2.2 fetchC8 "h" "/collections/all/products/boot" [] 0
     ⟨200, "", some (Json.obj [("product", Json.obj [("title", Json.str "Boot")])])⟩ rfl⟩

/-- C9: the email pattern `[a-z0-9-.]+@[a-z.]+` can only produce
matches whose characters are all outside `A`–`Z`, so a token containing
any ASCII uppercase character is never among the matches that
`SCRAPING_REGEX_EMAIL.findall` returns for any page body. -/
theorem c9_thm (body token : String) (h : ∃ c ∈ token.data, isUpperAscii c = true) :
    token ∉ findallEmail body := by
  intro hmem
  obtain ⟨c, hc, hup⟩ := h
  have hfalse := scanAll_chars matchEmailAt (fun c => isUpperAscii c = false)
    matchEmailAt_chars (body.data.length + 1) body.data token hmem c hc
  rw [hfalse] at hup
  cases hup

/-- Witness for C9: the mixed-case email token `Foo@bar.com` is never
returned, even from a body that contains it verbatim. -/
theorem c9_witness : "Foo@bar.com" ∉ findallEmail "email: Foo@bar.com here" :=
  c9_thm "email: Foo@bar.com here" "Foo@bar.com" ⟨'F', by decide, by decide⟩
